import Mathlib

/-!
# mSTL `iterator.h`: iterator categories, `distance`, `advance`, `reverse_iterator`

A shallow embedding of `src/iterator.h`.

* An iterator type `It` is described by the table of operations the header's
  templates call on it (`IteratorOps`): its `iterator_category`, `operator*`,
  `++`, `--`, `+=`/`+`, `-=`/`-`, the iterator difference, `==` and `<`/`>`.
* The counter `Distance& n` of `distance` has a type the caller picks; it is
  described by a `DistanceType` (width, signedness, whether it promotes to `int`)
  and its values are the integers in the range of that type.  `++n` and `n += d`
  convert their result back to the type; a signed overflow in the type the
  arithmetic is carried out in is undefined behaviour.
* The offset `Distance n` of `advance` is the unbounded `Int`.
* The three `while` loops take a fuel argument and return `none` (the loops of
  `advance`) or `Outcome.out_of_fuel` (the loop of `distance`) when the fuel runs
  out before the loop exits.
* Reading through an iterator outside the valid range is undefined behaviour in
  C++; `operator*` returns `Option`, with `none` standing for such a read.
* Member functions of `reverse_iterator` that return something other than
  `*this` are written in state-passing style: they return the object after the
  call next to their result.
* A call that does not compile is a value of its own (`Compiled.ill_formed`,
  `Outcome.ill_formed`): the initialization `reverse_iterator<Iterator>(x)` is
  ambiguous between the two explicit constructors, and the free operators call
  the non-`const` member `base()` on `const` references.
-/

namespace mSTL

/-! ## Iterator category tags (iterator.h:28-32) -/

/-- The five tag structs `input_iterator_tag` .. `random_access_iterator_tag`. -/
inductive iterator_tag where
  | input_iterator_tag
  | output_iterator_tag
  | forward_iterator_tag
  | bidirectional_iterator_tag
  | random_access_iterator_tag
deriving DecidableEq, Repr

open iterator_tag

/-! ## Calls that may not compile -/

/-- What a call of a function of the header comes to at compile time. -/
inductive Compiled (α : Type) where
  /-- the call compiles and yields `a` -/
  | ok (a : α)
  /-- the call is ill-formed: the program does not compile -/
  | ill_formed
deriving DecidableEq, Repr

/-- Using the result of a call in a further call. -/
def Compiled.bind {α β : Type} : Compiled α → (α → Compiled β) → Compiled β
  | Compiled.ok a, f => f a
  | Compiled.ill_formed, _ => Compiled.ill_formed

/-- Applying a function to the result of a call. -/
def Compiled.map {α β : Type} (f : α → β) : Compiled α → Compiled β
  | Compiled.ok a => Compiled.ok (f a)
  | Compiled.ill_formed => Compiled.ill_formed

/-! ## Integer types for `Distance` -/

/-- An integer type: the one the caller picks for the template parameter `Distance`,
or the `difference_type` of an iterator. -/
structure DistanceType where
  /-- the width in bits, sign bit included -/
  bits : Nat
  /-- whether the type is signed -/
  is_signed : Bool
  /-- whether the type ranks below `int` (the `char` and `short` families), so that
  arithmetic on it is carried out in `int` -/
  promoted : Bool
deriving DecidableEq, Repr

/-- The least value of the type. -/
def DistanceType.min_value (D : DistanceType) : Int :=
  if D.is_signed then -(2 ^ (D.bits - 1)) else 0

/-- The greatest value of the type. -/
def DistanceType.max_value (D : DistanceType) : Int :=
  if D.is_signed then 2 ^ (D.bits - 1) - 1 else 2 ^ D.bits - 1

/-- Whether the integer `x` is a value of the type. -/
def DistanceType.holds (D : DistanceType) (x : Int) : Bool :=
  decide (D.min_value ≤ x ∧ x ≤ D.max_value)

/-- Integral conversion to the type: the value of the type congruent to `x`
modulo `2 ^ bits` (for a signed type the rule of C++20, and what implementations
defined before it). -/
def DistanceType.convert (D : DistanceType) (x : Int) : Int :=
  if D.is_signed then (x + 2 ^ (D.bits - 1)) % 2 ^ D.bits - 2 ^ (D.bits - 1)
  else x % 2 ^ D.bits

/-- The statement `++n` for `n` of the type.  An unsigned type counts modulo
`2 ^ bits`; a promoted type is incremented in `int` and converted back; any other
signed type overflows at its greatest value, which is undefined behaviour (`none`). -/
def DistanceType.incr (D : DistanceType) (n : Int) : Option Int :=
  if D.is_signed && !D.promoted && decide (n = D.max_value) then none
  else some (D.convert (n + 1))

/-- The statement `n += d` for `n` of type `D` and `d` of the signed type `E`.  The sum
is formed in the common type of the two: `D` itself, modulo `2 ^ bits`, when `D` is
unsigned and at least as wide as `E`; otherwise a signed type of the larger of the
two widths, where an overflow is undefined behaviour (`none`).  The sum is then
converted to `D`. -/
def DistanceType.add_assign (D E : DistanceType) (n d : Int) : Option Int :=
  if (!D.is_signed && decide (E.bits ≤ D.bits)) ||
      decide (-(2 ^ (max D.bits E.bits - 1)) ≤ n + d ∧
        n + d ≤ 2 ^ (max D.bits E.bits - 1) - 1)
  then some (D.convert (n + d)) else none

/-- The type `unsigned char`. -/
def unsigned_char : DistanceType := { bits := 8, is_signed := false, promoted := true }

/-- The type `ptrdiff_t`, with the 64 bits it has in the LP64 and LLP64 data models. -/
def ptrdiff_t : DistanceType := { bits := 64, is_signed := true, promoted := false }

/-- The operations the templates of the header use on an iterator type `It`
whose `operator*` yields values of type `V`. -/
structure IteratorOps (It : Type) (V : Type) where
  /-- the member `iterator_traits<It>::iterator_category` -/
  category : iterator_tag
  /-- the read `*it`; `none` is a read outside the valid range -/
  deref : It → Option V
  /-- the step `++it` / `it++` -/
  inc : It → It
  /-- the step `--it` / `it--` -/
  dec : It → It
  /-- the offset `it + n` / `it += n` -/
  add : It → Int → It
  /-- the offset `it - n` / `it -= n` -/
  sub : It → Int → It
  /-- the member `iterator_traits<It>::difference_type`, the type of `a - b` -/
  difference_type : DistanceType
  /-- the difference `a - b` of two iterators -/
  diff : It → It → Compiled Int
  /-- the comparison `a == b`; `a != b` is its negation -/
  eq : It → It → Compiled Bool
  /-- the comparison `a < b` -/
  lt : It → It → Compiled Bool
  /-- the comparison `a > b` -/
  gt : It → It → Compiled Bool

/-- The function `iterator_category(const Iterator&)` (iterator.h:143-147): the tag
of the iterator's traits. -/
def iterator_category {It V : Type} (ops : IteratorOps It V) (_it : It) : iterator_tag :=
  ops.category

/-! ## Raw pointers into an array

A pointer into an array `mem` is the integer index of the element it points to;
`mem.length` is the one-past-the-end pointer. -/

/-- Reading `*p` for a pointer `p` into the array `mem`. -/
def ptr_deref {V : Type} (mem : List V) (p : Int) : Option V :=
  if 0 ≤ p then mem.get? p.toNat else none

/-- Raw pointers `T*` into `mem`: `iterator_traits<T*>` gives the category
`random_access_iterator_tag` and the difference type `ptrdiff_t`
(iterator.h:118-125); the operations are the built-in pointer arithmetic. -/
def ptr_ops {V : Type} (mem : List V) : IteratorOps Int V where
  category := random_access_iterator_tag
  deref := ptr_deref mem
  inc := fun p => p + 1
  dec := fun p => p - 1
  add := fun p n => p + n
  sub := fun p n => p - n
  difference_type := ptrdiff_t
  diff := fun a b => Compiled.ok (a - b)
  eq := fun a b => Compiled.ok (decide (a = b))
  lt := fun a b => Compiled.ok (decide (a < b))
  gt := fun a b => Compiled.ok (decide (a > b))

/-! ## Outcome of a dispatched call -/

/-- What a call of `distance` / `advance` comes to. -/
inductive Outcome (α : Type) where
  /-- the call returned -/
  | value (a : α)
  /-- the loop did not exit within the fuel given -/
  | out_of_fuel
  /-- no `_distance` / `_advance` overload accepts the tag: the call does not compile -/
  | no_overload
  /-- an expression in the body of the selected overload does not compile for the
  iterator type -/
  | ill_formed
  /-- a signed overflow of the counter: undefined behaviour -/
  | undefined
deriving DecidableEq, Repr

/-- A loop result as an outcome. -/
def Outcome.ofLoop {α : Type} : Option α → Outcome α
  | some a => Outcome.value a
  | none => Outcome.out_of_fuel

/-! ## `distance` (iterator.h:269-291) -/

/-- The overload `_distance(first, last, n, input_iterator_tag)`:
`while (first != last) { ++first; ++n; }` with `n` of type `D`; the result is the
final `n`. -/
def _distance_input {It V : Type} (ops : IteratorOps It V) (D : DistanceType) :
    Nat → It → It → Int → Outcome Int
  | 0, first, last, _ =>
    match ops.eq first last with
    | Compiled.ill_formed => Outcome.ill_formed
    | Compiled.ok _ => Outcome.out_of_fuel
  | fuel + 1, first, last, n =>
    match ops.eq first last with
    | Compiled.ill_formed => Outcome.ill_formed
    | Compiled.ok e =>
      if !e then
        match D.incr n with
        | some n1 => _distance_input ops D fuel (ops.inc first) last n1
        | none => Outcome.undefined
      else Outcome.value n

/-- The overload `_distance(first, last, n, random_access_iterator_tag)`:
`n += last - first;` with `n` of type `D`. -/
def _distance_random_access {It V : Type} (ops : IteratorOps It V) (D : DistanceType)
    (first last : It) (n : Int) : Outcome Int :=
  match ops.diff last first with
  | Compiled.ill_formed => Outcome.ill_formed
  | Compiled.ok d =>
    match D.add_assign ops.difference_type n d with
    | some n1 => Outcome.value n1
    | none => Outcome.undefined

/-- The function `distance(first, last, n)`: overload resolution on the tag
`iterator_category(first)`.  The tags derived from `input_iterator_tag` other than
`random_access_iterator_tag` convert to the base class and select the first
overload; `output_iterator_tag` converts to neither parameter type. -/
def distance {It V : Type} (ops : IteratorOps It V) (D : DistanceType) (fuel : Nat)
    (first last : It) (n : Int) : Outcome Int :=
  match iterator_category ops first with
  | input_iterator_tag => _distance_input ops D fuel first last n
  | forward_iterator_tag => _distance_input ops D fuel first last n
  | bidirectional_iterator_tag => _distance_input ops D fuel first last n
  | random_access_iterator_tag => _distance_random_access ops D first last n
  | output_iterator_tag => Outcome.no_overload

/-! ## `advance` (iterator.h:318-341) -/

/-- The overload `_advance(i, n, input_iterator_tag)`: `while (n--) ++i;`.
The test reads `n` and then decrements it; the result is the final `i`. -/
def _advance_input {It V : Type} (ops : IteratorOps It V) :
    Nat → It → Int → Option It
  | 0, _, _ => none
  | fuel + 1, i, n =>
    if n ≠ 0 then _advance_input ops fuel (ops.inc i) (n - 1) else some i

/-- The loop `while (n++) --i;` of the bidirectional overload. -/
def _advance_backward {It V : Type} (ops : IteratorOps It V) :
    Nat → It → Int → Option It
  | 0, _, _ => none
  | fuel + 1, i, n =>
    if n ≠ 0 then _advance_backward ops fuel (ops.dec i) (n + 1) else some i

/-- The overload `_advance(i, n, bidirectional_iterator_tag)`:
`if (n >= 0) while (n--) ++i; else while (n++) --i;`. -/
def _advance_bidirectional {It V : Type} (ops : IteratorOps It V)
    (fuel : Nat) (i : It) (n : Int) : Option It :=
  if n ≥ 0 then _advance_input ops fuel i n else _advance_backward ops fuel i n

/-- The overload `_advance(i, n, random_access_iterator_tag)`: `i += n;`. -/
def _advance_random_access {It V : Type} (ops : IteratorOps It V)
    (i : It) (n : Int) : It :=
  ops.add i n

/-- The function `advance(i, n)`: overload resolution on `iterator_category(i)`. -/
def advance {It V : Type} (ops : IteratorOps It V) (fuel : Nat)
    (i : It) (n : Int) : Outcome It :=
  match iterator_category ops i with
  | input_iterator_tag => Outcome.ofLoop (_advance_input ops fuel i n)
  | forward_iterator_tag => Outcome.ofLoop (_advance_input ops fuel i n)
  | bidirectional_iterator_tag => Outcome.ofLoop (_advance_bidirectional ops fuel i n)
  | random_access_iterator_tag => Outcome.value (_advance_random_access ops i n)
  | output_iterator_tag => Outcome.no_overload

/-! ## `reverse_iterator` (iterator.h:361-484) -/

/-- The class `reverse_iterator<Iterator>`: its one data member. -/
structure reverse_iterator (It : Type) where
  current_ : It
deriving DecidableEq, Repr

namespace reverse_iterator

variable {It V : Type}

/-- How a constructor declares its one parameter of type `iterator_type`. -/
inductive ParameterPassing where
  /-- the parameter `iterator_type x` -/
  | by_value
  /-- the parameter `const iterator_type& x` -/
  | by_const_reference
deriving DecidableEq, Repr

/-- The explicit constructors taking one `iterator_type` (iterator.h:381-382); both
have the body `current_(x)`. -/
def explicit_constructors : List ParameterPassing :=
  [ParameterPassing.by_value, ParameterPassing.by_const_reference]

/-- The initialization `reverse_iterator<Iterator>(x)` from an `iterator_type`.  Passing
by value and binding a `const` reference are both exact matches, so no declared
constructor is better than another, and the initialization compiles only when
there is one candidate. -/
def construct (x : It) : Compiled (reverse_iterator It) :=
  match explicit_constructors with
  | [_] => Compiled.ok { current_ := x }
  | _ => Compiled.ill_formed

/-- The member `base()`: `return current_;` (not declared `const`). -/
def base (self : reverse_iterator It) : It × reverse_iterator It :=
  (self.current_, self)

/-- Whether the member `base()` is declared `const` (iterator.h:397). -/
def base_is_const : Bool := false

/-- The call `x.base()` on an `x` of type `const reverse_iterator&`, as the free
operators make it: a member not declared `const` cannot be called on it. -/
def base_on_const (self : reverse_iterator It) : Compiled It :=
  if base_is_const then Compiled.ok self.base.1 else Compiled.ill_formed

/-- The member `operator*()`: `return (*current_);`. -/
def operator_star (ops : IteratorOps It V) (self : reverse_iterator It) :
    Option V × reverse_iterator It :=
  (ops.deref self.current_, self)

/-- The member `operator++()`: `current_--; return *this;`. -/
def operator_inc (ops : IteratorOps It V) (self : reverse_iterator It) :
    reverse_iterator It :=
  { current_ := ops.dec self.current_ }

/-- The member `operator++(int)`: `self temp = *this; current_--; return temp;`. -/
def operator_inc_int (ops : IteratorOps It V) (self : reverse_iterator It) :
    reverse_iterator It × reverse_iterator It :=
  let temp := self
  (temp, { current_ := ops.dec self.current_ })

/-- The member `operator--()`: `current_++; return *this;`. -/
def operator_dec (ops : IteratorOps It V) (self : reverse_iterator It) :
    reverse_iterator It :=
  { current_ := ops.inc self.current_ }

/-- The member `operator--(int)`: `self temp = *this; current_++; return temp;`. -/
def operator_dec_int (ops : IteratorOps It V) (self : reverse_iterator It) :
    reverse_iterator It × reverse_iterator It :=
  let temp := self
  (temp, { current_ := ops.inc self.current_ })

/-- The member `operator+(n) const`: `return self(current_ - n);`. -/
def operator_plus (ops : IteratorOps It V) (self : reverse_iterator It) (n : Int) :
    Compiled (reverse_iterator It × reverse_iterator It) :=
  (construct (ops.sub self.current_ n)).map (fun r => (r, self))

/-- The member `operator+=(n)`: `current_ -= n; return *this;`. -/
def operator_plus_assign (ops : IteratorOps It V) (self : reverse_iterator It) (n : Int) :
    reverse_iterator It :=
  { current_ := ops.sub self.current_ n }

/-- The member `operator-(n) const`: `return self(current_ + n);`. -/
def operator_minus (ops : IteratorOps It V) (self : reverse_iterator It) (n : Int) :
    Compiled (reverse_iterator It × reverse_iterator It) :=
  (construct (ops.add self.current_ n)).map (fun r => (r, self))

/-- The member `operator-=(n)`: `current_ += n; return *this;`. -/
def operator_minus_assign (ops : IteratorOps It V) (self : reverse_iterator It) (n : Int) :
    reverse_iterator It :=
  { current_ := ops.add self.current_ n }

/-- The member `operator[](n)`: `return *(*this + n);`. -/
def operator_index (ops : IteratorOps It V) (self : reverse_iterator It) (n : Int) :
    Compiled (Option V × reverse_iterator It) :=
  (operator_plus ops self n).map (fun p => ((operator_star ops p.1).1, self))

/-- The free `operator==`: `lhs.base() == rhs.base()` on two `const` references. -/
def operator_eq (ops : IteratorOps It V) (lhs rhs : reverse_iterator It) : Compiled Bool :=
  (base_on_const lhs).bind (fun a => (base_on_const rhs).bind (fun b => ops.eq a b))

/-- The free `operator!=`: `!(lhs == rhs)`. -/
def operator_ne (ops : IteratorOps It V) (lhs rhs : reverse_iterator It) : Compiled Bool :=
  (operator_eq ops lhs rhs).map (fun e => !e)

/-- The free `operator<`: `lhs.base() < rhs.base()` on two `const` references. -/
def operator_lt (ops : IteratorOps It V) (lhs rhs : reverse_iterator It) : Compiled Bool :=
  (base_on_const lhs).bind (fun a => (base_on_const rhs).bind (fun b => ops.lt a b))

/-- The free `operator>`: `lhs.base() > rhs.base()` on two `const` references. -/
def operator_gt (ops : IteratorOps It V) (lhs rhs : reverse_iterator It) : Compiled Bool :=
  (base_on_const lhs).bind (fun a => (base_on_const rhs).bind (fun b => ops.gt a b))

/-- The free `operator>=`: `!(lhs < rhs)`. -/
def operator_ge (ops : IteratorOps It V) (lhs rhs : reverse_iterator It) : Compiled Bool :=
  (operator_lt ops lhs rhs).map (fun e => !e)

/-- The free `operator<=`: `!(lhs > rhs)`. -/
def operator_le (ops : IteratorOps It V) (lhs rhs : reverse_iterator It) : Compiled Bool :=
  (operator_gt ops lhs rhs).map (fun e => !e)

/-- The free `operator-` on two reverse iterators: `lhs.base() - rhs.base()` on two
`const` references. -/
def operator_diff (ops : IteratorOps It V) (lhs rhs : reverse_iterator It) : Compiled Int :=
  (base_on_const lhs).bind (fun a => (base_on_const rhs).bind (fun b => ops.diff a b))

end reverse_iterator

/-- The function `make_reverse_iterator(i)`: `return reverse_iterator<Iterator>(i);`. -/
def make_reverse_iterator {It : Type} (i : It) : Compiled (reverse_iterator It) :=
  reverse_iterator.construct i

/-- The operations of `reverse_iterator<Iterator>` seen as an iterator type itself:
its category and difference type are the typedefs taken from
`iterator_traits<Iterator>` (iterator.h:367-369), the rest are the members and free
operators above. -/
def reverse_ops {It V : Type} (ops : IteratorOps It V) :
    IteratorOps (reverse_iterator It) V where
  category := ops.category
  deref := fun r => (reverse_iterator.operator_star ops r).1
  inc := reverse_iterator.operator_inc ops
  dec := reverse_iterator.operator_dec ops
  add := reverse_iterator.operator_plus_assign ops
  sub := reverse_iterator.operator_minus_assign ops
  difference_type := ops.difference_type
  diff := reverse_iterator.operator_diff ops
  eq := reverse_iterator.operator_eq ops
  lt := reverse_iterator.operator_lt ops
  gt := reverse_iterator.operator_gt ops

/-- An iterator type with the operations of `ops` that declares `tag` as its
`iterator_category`, the way a class deriving from `iterator<Category, T>`
(iterator.h:78-87) does. -/
def IteratorOps.declare {It V : Type} (tag : iterator_tag) (ops : IteratorOps It V) :
    IteratorOps It V :=
  { ops with category := tag }

/-- The position `n` steps away from `p`: `n` applications of `++` when `n ≥ 0`,
`-n` applications of `--` otherwise. -/
def step_by {It V : Type} (ops : IteratorOps It V) (p : It) (n : Int) : It :=
  if 0 ≤ n then ops.inc^[n.toNat] p else ops.dec^[(-n).toNat] p

/-! ## The tag hierarchy and overload selection (iterator.h:28-32) -/

/-- The public base class each tag struct is declared with: none for
`input_iterator_tag` and `output_iterator_tag`, `input_iterator_tag` for
`forward_iterator_tag`, and so on. -/
def direct_base : iterator_tag → Option iterator_tag
  | input_iterator_tag => none
  | output_iterator_tag => none
  | forward_iterator_tag => some input_iterator_tag
  | bidirectional_iterator_tag => some forward_iterator_tag
  | random_access_iterator_tag => some bidirectional_iterator_tag

/-- Walking up the base classes of `t` for at most `k` classes, looking for `r`. -/
def converts_to_within : Nat → iterator_tag → iterator_tag → Bool
  | 0, _, _ => false
  | k + 1, t, r =>
    decide (t = r) ||
      (match direct_base t with
       | some b => converts_to_within k b r
       | none => false)

/-- An object of tag type `t` is accepted where a parameter of tag type `r` is
declared: `t` is `r` or a class derived from `r` (the hierarchy has five classes). -/
def converts_to (t r : iterator_tag) : Bool :=
  converts_to_within 5 t r

/-- Overload resolution on a tag argument: among the overloads whose tag parameter
accepts `t`, the one whose parameter type is derived from the parameter type of
every other such overload; `none` when no overload accepts `t`. -/
def select_overload (overloads : List iterator_tag) (t : iterator_tag) :
    Option iterator_tag :=
  let viable := overloads.filter (fun r => converts_to t r)
  viable.find? (fun r => viable.all (fun r2 => converts_to r r2))

/-- The tag parameters of the two `_distance` overloads (iterator.h:269-286). -/
def _distance_overloads : List iterator_tag :=
  [input_iterator_tag, random_access_iterator_tag]

/-- The tag parameters of the three `_advance` overloads (iterator.h:318-336). -/
def _advance_overloads : List iterator_tag :=
  [input_iterator_tag, bidirectional_iterator_tag, random_access_iterator_tag]

/-! ## `iterator_traits` (iterator.h:97-135) -/

/-- The C++ types the traits speak about. -/
inductive CType where
  /-- an object type given by its name, with no nested typedefs (`int`, `double`, a
  plain class); `void` is not one of these -/
  | named (name : String)
  /-- the type `ptrdiff_t` -/
  | ptrdiff_t
  /-- the type `void` -/
  | void
  /-- an iterator tag struct -/
  | tag (t : iterator_tag)
  /-- the type `const T` -/
  | const_of (T : CType)
  /-- the type `T*` -/
  | pointer_to (T : CType)
  /-- the type `T&` -/
  | reference_to (T : CType)
  /-- a class declaring the nested typedefs `iterator_category`, `value_type`,
  `difference_type`, `pointer` and `reference` -/
  | iterator_class (iterator_category value_type difference_type pointer reference : CType)
deriving DecidableEq, Repr

/-- The five member typedefs of `iterator_traits<Iterator>`. -/
structure iterator_traits_members where
  iterator_category : CType
  value_type : CType
  difference_type : CType
  pointer : CType
  reference : CType
deriving DecidableEq, Repr

/-- Whether `T&` and `T*` are types: not for `void`, `const void` or a reference. -/
def CType.referenceable : CType → Bool
  | CType.void => false
  | CType.reference_to _ => false
  | CType.const_of T => CType.referenceable T
  | _ => true

/-- The template `iterator_traits<Iterator>`: the partial specialization for
`const T*` (the more specialized one), the one for `T*`, and the primary template,
which re-exports the nested typedefs of `Iterator`; `none` when the instantiation
does not compile: `Iterator` has no such typedefs, or the typedef `T& reference` of
a specialization is not a type. -/
def iterator_traits : CType → Option iterator_traits_members
  | CType.pointer_to (CType.const_of T) =>
    if CType.referenceable T then
      some { iterator_category := CType.tag random_access_iterator_tag
             value_type := T
             difference_type := CType.ptrdiff_t
             pointer := CType.pointer_to (CType.const_of T)
             reference := CType.reference_to (CType.const_of T) }
    else none
  | CType.pointer_to T =>
    if CType.referenceable T then
      some { iterator_category := CType.tag random_access_iterator_tag
             value_type := T
             difference_type := CType.ptrdiff_t
             pointer := CType.pointer_to T
             reference := CType.reference_to T }
    else none
  | CType.iterator_class c v d p r =>
    some { iterator_category := c
           value_type := v
           difference_type := d
           pointer := p
           reference := r }
  | _ => none

/-! ## Counter lemmas -/

theorem DistanceType.two_pow_bits (D : DistanceType) (hbits : 0 < D.bits) :
    (2 : Int) ^ D.bits = 2 * 2 ^ (D.bits - 1) := by
  obtain ⟨b, hb⟩ := Nat.exists_eq_succ_of_ne_zero (Nat.pos_iff_ne_zero.mp hbits)
  rw [hb, Nat.succ_sub_one, pow_succ]
  ring

theorem DistanceType.convert_of_holds (D : DistanceType) (hbits : 0 < D.bits) (x : Int)
    (hx : D.holds x = true) : D.convert x = x := by
  have hpow := D.two_pow_bits hbits
  have hpos : (0 : Int) < 2 ^ (D.bits - 1) := by positivity
  unfold DistanceType.holds DistanceType.min_value DistanceType.max_value at hx
  unfold DistanceType.convert
  generalize (2 : Int) ^ (D.bits - 1) = m at hpow hpos hx ⊢
  generalize (2 : Int) ^ D.bits = M at hpow hx ⊢
  cases hs : D.is_signed
  · simp only [hs, Bool.false_eq_true, if_false, decide_eq_true_eq] at hx ⊢
    exact Int.emod_eq_of_lt hx.1 (by omega)
  · simp only [hs, if_true, decide_eq_true_eq] at hx ⊢
    rw [Int.emod_eq_of_lt (by omega) (by omega)]
    omega

theorem DistanceType.incr_of_lt (D : DistanceType) (hbits : 0 < D.bits) (n : Int)
    (hn : D.holds n = true) (hlt : n < D.max_value) : D.incr n = some (n + 1) := by
  have hne : ¬ n = D.max_value := by omega
  have hholds : D.holds (n + 1) = true := by
    unfold DistanceType.holds at hn ⊢
    simp only [decide_eq_true_eq] at hn ⊢
    omega
  simp [DistanceType.incr, hne, D.convert_of_holds hbits (n + 1) hholds]

theorem DistanceType.add_assign_of_holds (D E : DistanceType) (hbits : 0 < D.bits)
    (n d : Int) (h : D.holds (n + d) = true) : D.add_assign E n d = some (n + d) := by
  have hconv := D.convert_of_holds hbits (n + d) h
  unfold DistanceType.add_assign
  rw [hconv]
  by_cases hmod : (!D.is_signed && decide (E.bits ≤ D.bits)) = true
  · simp [hmod]
  · have hle : D.bits - 1 ≤ max D.bits E.bits - 1 := by omega
    have hmono : (2 : Int) ^ (D.bits - 1) ≤ 2 ^ (max D.bits E.bits - 1) :=
      pow_le_pow_right₀ (by norm_num) hle
    have hpos : (0 : Int) < 2 ^ (D.bits - 1) := by positivity
    have hrange : -(2 ^ (max D.bits E.bits - 1) : Int) ≤ n + d ∧
        n + d ≤ 2 ^ (max D.bits E.bits - 1) - 1 := by
      unfold DistanceType.holds DistanceType.min_value DistanceType.max_value at h
      cases hs : D.is_signed
      · have hlt : D.bits < E.bits := by
          simp [hs] at hmod
          exact hmod
        have hle2 : D.bits ≤ max D.bits E.bits - 1 := by omega
        have hmono2 : (2 : Int) ^ D.bits ≤ 2 ^ (max D.bits E.bits - 1) :=
          pow_le_pow_right₀ (by norm_num) hle2
        simp only [hs, Bool.false_eq_true, if_false, decide_eq_true_eq] at h
        generalize (2 : Int) ^ (max D.bits E.bits - 1) = W at hmono2 ⊢
        generalize (2 : Int) ^ D.bits = M at hmono2 h
        omega
      · simp only [hs, if_true, decide_eq_true_eq] at h
        generalize (2 : Int) ^ (max D.bits E.bits - 1) = W at hmono ⊢
        generalize (2 : Int) ^ (D.bits - 1) = m at hmono h
        omega
    simp [hrange]

/-! ## Loop lemmas -/

section loops

variable {It V : Type}

theorem advance_input_loop (ops : IteratorOps It V) :
    ∀ (k fuel : Nat) (i : It), k < fuel →
      _advance_input ops fuel i (k : Int) = some (ops.inc^[k] i) := by
  intro k
  induction k with
  | zero =>
    intro fuel i h
    obtain ⟨f, rfl⟩ := Nat.exists_eq_succ_of_ne_zero (Nat.pos_iff_ne_zero.mp h)
    simp [_advance_input]
  | succ k ih =>
    intro fuel i h
    obtain ⟨f, rfl⟩ := Nat.exists_eq_succ_of_ne_zero (Nat.not_eq_zero_of_lt h)
    have hk : k < f := Nat.lt_of_succ_lt_succ h
    have hne : ((k : Int) + 1) ≠ 0 := by omega
    simp only [_advance_input, Nat.cast_succ, ne_eq, hne, not_false_eq_true, if_true,
      add_sub_cancel_right, Function.iterate_succ_apply]
    exact ih f (ops.inc i) hk

theorem advance_backward_loop (ops : IteratorOps It V) :
    ∀ (k fuel : Nat) (i : It), k < fuel →
      _advance_backward ops fuel i (-(k : Int)) = some (ops.dec^[k] i) := by
  intro k
  induction k with
  | zero =>
    intro fuel i h
    obtain ⟨f, rfl⟩ := Nat.exists_eq_succ_of_ne_zero (Nat.pos_iff_ne_zero.mp h)
    simp [_advance_backward]
  | succ k ih =>
    intro fuel i h
    obtain ⟨f, rfl⟩ := Nat.exists_eq_succ_of_ne_zero (Nat.not_eq_zero_of_lt h)
    have hk : k < f := Nat.lt_of_succ_lt_succ h
    have hne : (-(((k + 1 : Nat)) : Int)) ≠ 0 := by omega
    have hstep : (-(((k + 1 : Nat)) : Int)) + 1 = -(k : Int) := by omega
    simp only [_advance_backward, ne_eq, hne, not_false_eq_true, if_true, hstep,
      Function.iterate_succ_apply]
    exact ih f (ops.dec i) hk

theorem distance_input_loop (ops : IteratorOps It V) (D : DistanceType)
    (hbits : 0 < D.bits) (last : It) :
    ∀ (k fuel : Nat) (first : It) (n : Int), k < fuel →
      ops.eq (ops.inc^[k] first) last = Compiled.ok true →
      (∀ j, j < k → ops.eq (ops.inc^[j] first) last = Compiled.ok false) →
      D.holds n = true → n + k ≤ D.max_value →
      _distance_input ops D fuel first last n = Outcome.value (n + k) := by
  intro k
  induction k with
  | zero =>
    intro fuel first n h hk _ _ _
    obtain ⟨f, rfl⟩ := Nat.exists_eq_succ_of_ne_zero (Nat.pos_iff_ne_zero.mp h)
    have h0 : ops.eq first last = Compiled.ok true := by simpa using hk
    simp [_distance_input, h0]
  | succ k ih =>
    intro fuel first n h hk hlt hn hmax
    obtain ⟨f, rfl⟩ := Nat.exists_eq_succ_of_ne_zero (Nat.not_eq_zero_of_lt h)
    have hf : k < f := Nat.lt_of_succ_lt_succ h
    have h0 : ops.eq first last = Compiled.ok false := by
      simpa using hlt 0 (Nat.succ_pos k)
    have hcast : ((k + 1 : Nat) : Int) = (k : Int) + 1 := by push_cast; ring
    have hnlt : n < D.max_value := by omega
    have hincr := D.incr_of_lt hbits n hn hnlt
    have hn1 : D.holds (n + 1) = true := by
      unfold DistanceType.holds at hn ⊢
      simp only [decide_eq_true_eq] at hn ⊢
      omega
    have hrec := ih f (ops.inc first) (n + 1) hf
      (by simpa [Function.iterate_succ_apply] using hk)
      (fun j hj => by
        have := hlt (j + 1) (Nat.succ_lt_succ hj)
        simpa [Function.iterate_succ_apply] using this)
      hn1 (by omega)
    simp only [_distance_input, h0, Bool.not_false, if_true, hincr, hrec]
    congr 1
    omega

theorem advance_input_congr (ops ops2 : IteratorOps It V) (h : ops2.inc = ops.inc) :
    ∀ (fuel : Nat) (i : It) (n : Int),
      _advance_input ops2 fuel i n = _advance_input ops fuel i n := by
  intro fuel
  induction fuel with
  | zero => intro i n; rfl
  | succ f ih =>
    intro i n
    simp only [_advance_input, h, ih]

theorem advance_bidirectional_loop (ops : IteratorOps It V) (fuel : Nat) (p : It) (n : Int)
    (hfuel : n.natAbs < fuel) :
    _advance_bidirectional ops fuel p n = some (step_by ops p n) := by
  unfold _advance_bidirectional step_by
  by_cases hn : 0 ≤ n
  · obtain ⟨k, rfl⟩ := Int.eq_ofNat_of_zero_le hn
    have hk : k < fuel := by simpa using hfuel
    simp [advance_input_loop ops k fuel p hk]
  · obtain ⟨k, hk⟩ := Int.exists_eq_neg_ofNat (le_of_lt (not_le.mp hn))
    subst hk
    have hk : k < fuel := by simpa using hfuel
    have hneg : ¬ (-(k : Int)) ≥ 0 := hn
    simp only [hneg, hn, if_false, neg_neg, Int.toNat_ofNat]
    exact advance_backward_loop ops k fuel p hk

theorem step_by_round_trip (ops : IteratorOps It V)
    (hdi : ∀ x, ops.dec (ops.inc x) = x) (hid : ∀ x, ops.inc (ops.dec x) = x)
    (p : It) (n : Int) : step_by ops (step_by ops p n) (-n) = p := by
  have hL : Function.LeftInverse ops.dec ops.inc := hdi
  have hR : Function.LeftInverse ops.inc ops.dec := hid
  unfold step_by
  rcases lt_trichotomy n 0 with hn | hn | hn
  · have h1 : ¬ 0 ≤ n := not_le.mpr hn
    have h2 : 0 ≤ -n := by omega
    simp only [h1, h2, if_false, if_true]
    exact hR.iterate _ p
  · subst hn
    simp
  · have h1 : 0 ≤ n := le_of_lt hn
    have h2 : ¬ 0 ≤ -n := by omega
    simp only [h1, h2, if_false, if_true, neg_neg]
    exact hL.iterate _ p

theorem ptr_iterate_inc (mem : List V) (k : Nat) (x : Int) :
    (ptr_ops mem).inc^[k] x = x + k := by
  induction k generalizing x with
  | zero => simp
  | succ k ih =>
    rw [Function.iterate_succ_apply, ih]
    simp only [ptr_ops, Nat.cast_succ]
    ring

theorem ptr_iterate_dec (mem : List V) (k : Nat) (x : Int) :
    (ptr_ops mem).dec^[k] x = x - k := by
  induction k generalizing x with
  | zero => simp
  | succ k ih =>
    rw [Function.iterate_succ_apply, ih]
    simp only [ptr_ops, Nat.cast_succ]
    ring

theorem ptr_step_by (mem : List V) (x m : Int) :
    step_by (ptr_ops mem) x m = x + m := by
  unfold step_by
  by_cases hm : 0 ≤ m
  · simp only [hm, if_true, ptr_iterate_inc]
    omega
  · simp only [hm, if_false, ptr_iterate_dec]
    omega

theorem reverse_iterate_inc (ops : IteratorOps It V) (k : Nat) (r : reverse_iterator It) :
    (reverse_ops ops).inc^[k] r = { current_ := ops.dec^[k] r.current_ } := by
  induction k generalizing r with
  | zero => simp
  | succ k ih =>
    rw [Function.iterate_succ_apply, ih, Function.iterate_succ_apply]
    rfl

end loops

/-! ## `reverse_iterator`: dereference and traversal -/

/-- C1, the code at the failing input: over the array `[10, 20, 30, 40]` the adaptor
wrapping position 2 dereferences to the element at position 2 itself, which is 30,
while the element immediately before position 2 is 20; the wrapped position is
left unchanged by the call. -/
theorem reverse_iterator_star_reads_current :
    reverse_iterator.operator_star (ptr_ops ([10, 20, 30, 40] : List Nat))
        { current_ := (2 : Int) } = (some 30, { current_ := (2 : Int) }) ∧
    (ptr_ops ([10, 20, 30, 40] : List Nat)).deref
        ((ptr_ops ([10, 20, 30, 40] : List Nat)).dec 2) = some 20 := by
  decide

/-- C2, the code at the failing input: over `[10, 20, 30, 40]` with `last = 4`, the
adaptor wrapping `last` reads one past the end (no element), after one `++` it
reads 40 and after a second `++` it reads 30, where the scenario expects 40, 30
and 20. -/
theorem reverse_iterator_scenario_off_by_one :
    (reverse_iterator.operator_star (ptr_ops ([10, 20, 30, 40] : List Nat))
        { current_ := (4 : Int) }).1 = none ∧
    (reverse_iterator.operator_star (ptr_ops ([10, 20, 30, 40] : List Nat))
        (reverse_iterator.operator_inc (ptr_ops ([10, 20, 30, 40] : List Nat))
          { current_ := (4 : Int) })).1 = some 40 ∧
    (reverse_iterator.operator_star (ptr_ops ([10, 20, 30, 40] : List Nat))
        (reverse_iterator.operator_inc (ptr_ops ([10, 20, 30, 40] : List Nat))
          (reverse_iterator.operator_inc (ptr_ops ([10, 20, 30, 40] : List Nat))
            { current_ := (4 : Int) }))).1 = some 30 := by
  decide

/-- C3, the code at the failing input: for two adaptors wrapping the positions 3 and
1, two `++` steps lead from the first to the second, but `distance` does not
compile: its random-access overload needs `last - first`, the linear overload
needs `first != last`, and both operators call `base()` on `const` references. -/
theorem reverse_iterator_distance_ill_formed :
    (reverse_ops (ptr_ops ([10, 20, 30, 40] : List Nat))).inc
        ((reverse_ops (ptr_ops ([10, 20, 30, 40] : List Nat))).inc
          { current_ := (3 : Int) }) = { current_ := (1 : Int) } ∧
    distance (reverse_ops (ptr_ops ([10, 20, 30, 40] : List Nat))) ptrdiff_t 3
        { current_ := (3 : Int) } { current_ := (1 : Int) } 0 = Outcome.ill_formed ∧
    _distance_input (reverse_ops (ptr_ops ([10, 20, 30, 40] : List Nat))) ptrdiff_t 3
        { current_ := (3 : Int) } { current_ := (1 : Int) } 0 = Outcome.ill_formed ∧
    reverse_iterator.operator_diff (ptr_ops ([10, 20, 30, 40] : List Nat))
        { current_ := (1 : Int) } { current_ := (3 : Int) } = Compiled.ill_formed := by
  decide

/-- What the adaptor over raw pointers reads after `k` applications of `++`,
starting from the adaptor wrapping `last`: the element at `last - k`. -/
theorem reverse_iterator_walk_reads {V : Type} (mem : List V) (last : Int) (k : Nat) :
    (reverse_iterator.operator_star (ptr_ops mem)
        ((reverse_ops (ptr_ops mem)).inc^[k] { current_ := last })).1
      = ptr_deref mem (last - k) := by
  rw [reverse_iterate_inc, ptr_iterate_dec]
  rfl

/-- Neither overload of `_distance` compiles for a `reverse_iterator`, whatever the
wrapped iterator type, the counter type and the arguments. -/
theorem reverse_iterator_distance_never_compiles {It V : Type} (ops : IteratorOps It V)
    (D : DistanceType) (fuel : Nat) (x y : reverse_iterator It) (n : Int) :
    _distance_input (reverse_ops ops) D fuel x y n = Outcome.ill_formed ∧
    _distance_random_access (reverse_ops ops) D x y n = Outcome.ill_formed := by
  constructor
  · cases fuel <;> rfl
  · rfl

/-! ## `distance` -/

set_option maxRecDepth 100000 in
/-- C4, counterexample: a forward-tagged iterator over 256 elements is walked from
position 0 to position 256, which is reached after exactly 256 steps and not
earlier; with an `unsigned char` counter starting at 0 the walk returns 0, not
256. -/
theorem distance_linear_walk_wraps :
    (IteratorOps.declare forward_iterator_tag (ptr_ops (List.replicate 256 (0 : Nat)))).eq
      ((IteratorOps.declare forward_iterator_tag
        (ptr_ops (List.replicate 256 (0 : Nat)))).inc^[256] 0) 256 = Compiled.ok true ∧
    (∀ j, j < 256 →
      (IteratorOps.declare forward_iterator_tag (ptr_ops (List.replicate 256 (0 : Nat)))).eq
        ((IteratorOps.declare forward_iterator_tag
          (ptr_ops (List.replicate 256 (0 : Nat)))).inc^[j] 0) 256 = Compiled.ok false) ∧
    _distance_input (IteratorOps.declare forward_iterator_tag
        (ptr_ops (List.replicate 256 (0 : Nat)))) unsigned_char 257 0 256 0
      = Outcome.value 0 ∧
    distance (IteratorOps.declare forward_iterator_tag
        (ptr_ops (List.replicate 256 (0 : Nat)))) unsigned_char 257 0 256 0
      = Outcome.value 0 ∧
    (Outcome.value 0 : Outcome Int) ≠ Outcome.value ((256 : Nat) : Int) := by
  refine ⟨?_, ?_, by decide, by decide, by decide⟩
  · have h := ptr_iterate_inc (List.replicate 256 (0 : Nat)) 256 0
    simp only [IteratorOps.declare] at h ⊢
    rw [h]
    decide
  · intro j hj
    have h := ptr_iterate_inc (List.replicate 256 (0 : Nat)) j 0
    simp only [IteratorOps.declare] at h ⊢
    rw [h]
    have hne : ¬ ((j : Int) = 256) := by omega
    simp [ptr_ops, hne]

/-- C4, as amended: when `last` is reached from `first` after exactly `k` applications
of `++` and not earlier, and the counter type can represent `k`, the linear walk
`_distance(.., input_iterator_tag)` returns for any fuel above `k`, and with the
counter starting at 0 its result is `k`; `distance` selects this walk, with the
same result, for every iterator type whose tag is input, forward or
bidirectional. -/
theorem distance_linear_walk_counts {It V : Type} (ops : IteratorOps It V)
    (D : DistanceType) (hbits : 0 < D.bits)
    (first last : It) (k : Nat)
    (hreach : ops.eq (ops.inc^[k] first) last = Compiled.ok true)
    (hearlier : ∀ j, j < k → ops.eq (ops.inc^[j] first) last = Compiled.ok false)
    (hfit : (k : Int) ≤ D.max_value)
    (fuel : Nat) (hfuel : k < fuel) :
    _distance_input ops D fuel first last 0 = Outcome.value (k : Int) ∧
    (ops.category = input_iterator_tag ∨ ops.category = forward_iterator_tag ∨
        ops.category = bidirectional_iterator_tag →
      distance ops D fuel first last 0 = Outcome.value (k : Int)) := by
  have hzero : D.holds 0 = true := by
    have hk : (0 : Int) ≤ k := Int.natCast_nonneg k
    have hpos : (0 : Int) < 2 ^ (D.bits - 1) := by positivity
    unfold DistanceType.holds DistanceType.min_value
    simp only [decide_eq_true_eq]
    constructor
    · split <;> omega
    · omega
  have hwalk : _distance_input ops D fuel first last 0 = Outcome.value (k : Int) := by
    have := distance_input_loop ops D hbits last k fuel first 0 hfuel hreach hearlier
      hzero (by omega)
    simpa using this
  refine ⟨hwalk, ?_⟩
  intro hcat
  rcases hcat with h | h | h <;> simp [distance, iterator_category, h, hwalk]

/-- Witness for C4: a forward-tagged iterator over `[10, 20, 30, 40]`, from position 1
to position 4, three steps, counted in a `ptrdiff_t`. -/
theorem distance_linear_walk_counts_witness :
    0 < ptrdiff_t.bits ∧
    (IteratorOps.declare forward_iterator_tag (ptr_ops ([10, 20, 30, 40] : List Nat))).eq
      ((IteratorOps.declare forward_iterator_tag
        (ptr_ops ([10, 20, 30, 40] : List Nat))).inc^[3] 1) 4 = Compiled.ok true ∧
    (∀ j, j < 3 →
      (IteratorOps.declare forward_iterator_tag (ptr_ops ([10, 20, 30, 40] : List Nat))).eq
        ((IteratorOps.declare forward_iterator_tag
          (ptr_ops ([10, 20, 30, 40] : List Nat))).inc^[j] 1) 4 = Compiled.ok false) ∧
    ((3 : Nat) : Int) ≤ ptrdiff_t.max_value ∧
    3 < 4 ∧
    _distance_input (IteratorOps.declare forward_iterator_tag
        (ptr_ops ([10, 20, 30, 40] : List Nat))) ptrdiff_t 4 1 4 0 = Outcome.value 3 ∧
    distance (IteratorOps.declare forward_iterator_tag
        (ptr_ops ([10, 20, 30, 40] : List Nat))) ptrdiff_t 4 1 4 0 = Outcome.value 3 :=
  ⟨by decide, by decide, by decide, by decide, by decide,
    (distance_linear_walk_counts
      (IteratorOps.declare forward_iterator_tag (ptr_ops ([10, 20, 30, 40] : List Nat)))
      ptrdiff_t (by decide) 1 4 3 (by decide) (by decide) (by decide) 4 (by decide)).1,
    (distance_linear_walk_counts
      (IteratorOps.declare forward_iterator_tag (ptr_ops ([10, 20, 30, 40] : List Nat)))
      ptrdiff_t (by decide) 1 4 3 (by decide) (by decide) (by decide) 4
      (by decide)).2 (Or.inr (Or.inl rfl))⟩

/-- C5, counterexample: for the raw pointers `a = 1`, `b = 0` and an `unsigned char`
counter starting at 0, `distance(a, b)` is 255, not `b - a = -1`, and it is not
the negation of `distance(b, a) = 1`. -/
theorem distance_random_access_wraps :
    distance (ptr_ops ([10, 20, 30, 40] : List Nat)) unsigned_char 0 1 0 0
      = Outcome.value 255 ∧
    distance (ptr_ops ([10, 20, 30, 40] : List Nat)) unsigned_char 0 0 1 0
      = Outcome.value 1 ∧
    (Outcome.value 255 : Outcome Int) ≠ Outcome.value (0 - 1) ∧
    (Outcome.value 255 : Outcome Int) ≠ Outcome.value (-1) := by
  decide

/-- C5, as amended: for raw pointers `a`, `b` (integer addresses, their difference a
`ptrdiff_t` value) and a counter type that can represent `b - a`, `distance` with
the counter starting at 0 returns the signed difference `b - a`, for any fuel;
when `a - b` is a `ptrdiff_t` value that the counter type can represent as well,
the two orders of the arguments give opposite results. -/
theorem distance_random_access_signed {V : Type} (mem : List V) (D : DistanceType)
    (hbits : 0 < D.bits) (fuel : Nat) (a b : Int)
    (_hptr : (ptr_ops mem).difference_type.holds (b - a) = true)
    (hfit : D.holds (b - a) = true) :
    distance (ptr_ops mem) D fuel a b 0 = Outcome.value (b - a) ∧
    ((ptr_ops mem).difference_type.holds (a - b) = true → D.holds (a - b) = true →
      distance (ptr_ops mem) D fuel b a 0 = Outcome.value (-(b - a))) := by
  constructor
  · have h := D.add_assign_of_holds ptrdiff_t hbits 0 (b - a) (by simpa using hfit)
    simp only [zero_add] at h
    simp [distance, iterator_category, ptr_ops, _distance_random_access, h]
  · intro _ hfit2
    have h := D.add_assign_of_holds ptrdiff_t hbits 0 (a - b) (by simpa using hfit2)
    simp only [zero_add] at h
    simp [distance, iterator_category, ptr_ops, _distance_random_access, h]

/-- Witness for C5: the raw pointers 3 and 1 with a `ptrdiff_t` counter. -/
theorem distance_random_access_signed_witness :
    0 < ptrdiff_t.bits ∧
    (ptr_ops ([10, 20, 30, 40] : List Nat)).difference_type.holds (1 - 3) = true ∧
    ptrdiff_t.holds (1 - 3) = true ∧
    (ptr_ops ([10, 20, 30, 40] : List Nat)).difference_type.holds (3 - 1) = true ∧
    ptrdiff_t.holds (3 - 1) = true ∧
    distance (ptr_ops ([10, 20, 30, 40] : List Nat)) ptrdiff_t 0 3 1 0
      = Outcome.value (1 - 3) ∧
    distance (ptr_ops ([10, 20, 30, 40] : List Nat)) ptrdiff_t 0 1 3 0
      = Outcome.value (-(1 - 3)) :=
  ⟨by decide, by decide, by decide, by decide, by decide,
    (distance_random_access_signed ([10, 20, 30, 40] : List Nat) ptrdiff_t (by decide) 0 3 1
      (by decide) (by decide)).1,
    (distance_random_access_signed ([10, 20, 30, 40] : List Nat) ptrdiff_t (by decide) 0 3 1
      (by decide) (by decide)).2 (by decide) (by decide)⟩

/-! ## `advance` -/

/-- C6: when `++` and `--` are mutually inverse, `advance(p, n)` followed by
`advance(p, -n)` brings the position back to `p`: on the bidirectional overload
for any fuel above `|n|`, and on the random-access overload `p += n` for every
iterator type whose `+=` moves by `n` steps. -/
theorem advance_round_trip {It V : Type} (ops : IteratorOps It V)
    (hdi : ∀ x, ops.dec (ops.inc x) = x) (hid : ∀ x, ops.inc (ops.dec x) = x)
    (p : It) (n : Int) :
    (∀ fuel, n.natAbs < fuel →
      ∃ q, _advance_bidirectional ops fuel p n = some q ∧
        _advance_bidirectional ops fuel q (-n) = some p) ∧
    ((∀ x m, ops.add x m = step_by ops x m) →
      _advance_random_access ops (_advance_random_access ops p n) (-n) = p) := by
  constructor
  · intro fuel hfuel
    refine ⟨step_by ops p n, advance_bidirectional_loop ops fuel p n hfuel, ?_⟩
    have hfuel2 : (-n).natAbs < fuel := by simpa using hfuel
    rw [advance_bidirectional_loop ops fuel _ (-n) hfuel2,
      step_by_round_trip ops hdi hid p n]
  · intro hadd
    simp only [_advance_random_access, hadd]
    exact step_by_round_trip ops hdi hid p n

/-- Witness for C6: raw pointers, position 5, offset -3, fuel 4. -/
theorem advance_round_trip_witness :
    (∀ x, (ptr_ops ([10, 20, 30, 40] : List Nat)).dec
        ((ptr_ops ([10, 20, 30, 40] : List Nat)).inc x) = x) ∧
    (∀ x, (ptr_ops ([10, 20, 30, 40] : List Nat)).inc
        ((ptr_ops ([10, 20, 30, 40] : List Nat)).dec x) = x) ∧
    (∃ q, _advance_bidirectional (ptr_ops ([10, 20, 30, 40] : List Nat)) 4 5 (-3) = some q ∧
        _advance_bidirectional (ptr_ops ([10, 20, 30, 40] : List Nat)) 4 q (-(-3))
          = some 5) ∧
    _advance_random_access (ptr_ops ([10, 20, 30, 40] : List Nat))
        (_advance_random_access (ptr_ops ([10, 20, 30, 40] : List Nat)) 5 (-3)) (-(-3))
      = 5 :=
  ⟨fun x => by simp [ptr_ops], fun x => by simp [ptr_ops],
    (advance_round_trip (ptr_ops ([10, 20, 30, 40] : List Nat))
      (fun x => by simp [ptr_ops]) (fun x => by simp [ptr_ops]) 5 (-3)).1 4 (by decide),
    (advance_round_trip (ptr_ops ([10, 20, 30, 40] : List Nat))
      (fun x => by simp [ptr_ops]) (fun x => by simp [ptr_ops]) 5 (-3)).2
      (fun x m => by rw [ptr_step_by]; rfl)⟩

/-- C7: the bidirectional overload returns for any fuel above `|n|`, leaving the
position stepped forward `n` times when `n ≥ 0` and stepped backward `-n` times
when `n < 0`; for `n = 0` the position is unchanged; `advance` selects this
overload for a bidirectional-tagged iterator type. -/
theorem advance_bidirectional_steps {It V : Type} (ops : IteratorOps It V)
    (p : It) (n : Int) (fuel : Nat) (hfuel : n.natAbs < fuel) :
    (0 ≤ n → _advance_bidirectional ops fuel p n = some (ops.inc^[n.toNat] p)) ∧
    (n < 0 → _advance_bidirectional ops fuel p n = some (ops.dec^[(-n).toNat] p)) ∧
    (n = 0 → _advance_bidirectional ops fuel p n = some p) ∧
    (ops.category = bidirectional_iterator_tag →
      advance ops fuel p n = Outcome.ofLoop (_advance_bidirectional ops fuel p n)) := by
  have h := advance_bidirectional_loop ops fuel p n hfuel
  refine ⟨?_, ?_, ?_, ?_⟩
  · intro hn
    simpa [step_by, hn] using h
  · intro hn
    simpa [step_by, not_le.mpr hn] using h
  · intro hn
    subst hn
    simpa [step_by] using h
  · intro hcat
    simp [advance, iterator_category, hcat]

/-- Witness for C7: a bidirectional-tagged iterator at position 3 moved by -2. -/
theorem advance_bidirectional_steps_witness :
    (-2 : Int).natAbs < 3 ∧
    _advance_bidirectional (IteratorOps.declare bidirectional_iterator_tag
        (ptr_ops ([10, 20, 30, 40] : List Nat))) 3 3 (-2) = some 1 ∧
    advance (IteratorOps.declare bidirectional_iterator_tag
        (ptr_ops ([10, 20, 30, 40] : List Nat))) 3 3 (-2) = Outcome.value 1 := by
  have h := advance_bidirectional_steps (IteratorOps.declare bidirectional_iterator_tag
    (ptr_ops ([10, 20, 30, 40] : List Nat))) 3 (-2) 3 (by decide)
  refine ⟨by decide, ?_, ?_⟩
  · rw [h.2.1 (by decide)]
    decide
  · rw [h.2.2.2 rfl, h.2.1 (by decide)]
    decide

/-- C8: for `n ≥ 0` the input overload returns for any fuel above `n`, leaving the
position stepped forward exactly `n` times, and `advance` selects it for input- and
forward-tagged iterator types; for every `n` and every fuel its outcome is the same
under any other table of operations with the same `++`, so it applies no `--`. -/
theorem advance_input_forward_only {It V : Type} (ops : IteratorOps It V)
    (p : It) (n : Int) (hn : 0 ≤ n) (fuel : Nat) (hfuel : n.toNat < fuel) :
    _advance_input ops fuel p n = some (ops.inc^[n.toNat] p) ∧
    (ops.category = input_iterator_tag ∨ ops.category = forward_iterator_tag →
      advance ops fuel p n = Outcome.value (ops.inc^[n.toNat] p)) ∧
    (∀ (ops2 : IteratorOps It V), ops2.inc = ops.inc →
      ∀ (f : Nat) (i : It) (m : Int),
        _advance_input ops2 f i m = _advance_input ops f i m) := by
  have hwalk : _advance_input ops fuel p n = some (ops.inc^[n.toNat] p) := by
    obtain ⟨k, rfl⟩ := Int.eq_ofNat_of_zero_le hn
    have hk : k < fuel := by simpa using hfuel
    simpa using advance_input_loop ops k fuel p hk
  refine ⟨hwalk, ?_, ?_⟩
  · intro hcat
    rcases hcat with h | h <;> simp [advance, iterator_category, h, hwalk, Outcome.ofLoop]
  · intro ops2 h
    exact advance_input_congr ops ops2 h

/-- Witness for C8: an input-tagged iterator at position 0 advanced by 2. -/
theorem advance_input_forward_only_witness :
    (0 : Int) ≤ 2 ∧ (2 : Int).toNat < 3 ∧
    _advance_input (IteratorOps.declare input_iterator_tag
        (ptr_ops ([10, 20, 30, 40] : List Nat))) 3 0 2 = some 2 ∧
    advance (IteratorOps.declare input_iterator_tag
        (ptr_ops ([10, 20, 30, 40] : List Nat))) 3 0 2 = Outcome.value 2 := by
  have h := advance_input_forward_only (IteratorOps.declare input_iterator_tag
    (ptr_ops ([10, 20, 30, 40] : List Nat))) 0 2 (by decide) 3 (by decide)
  refine ⟨by decide, by decide, ?_, ?_⟩
  · rw [h.1]
    decide
  · rw [h.2.1 (Or.inl rfl)]
    decide

/-! ## `reverse_iterator`: construction, `base` and offsets -/

/-- C9, the code at the failing input: `make_reverse_iterator(p)` does not compile for
any `p`, the initialization `reverse_iterator<Iterator>(i)` being ambiguous between
the two explicit constructors; on an adaptor `r` that exists, `base()` returns
`current_` and leaves `r` as it was. -/
theorem make_reverse_iterator_ill_formed {It : Type} (p : It) (r : reverse_iterator It) :
    make_reverse_iterator p = Compiled.ill_formed ∧
    make_reverse_iterator (0 : Int) = Compiled.ill_formed ∧
    r.base = (r.current_, r) :=
  ⟨rfl, rfl, rfl⟩

/-- C10, the code at the failing input: `r + n` does not compile, `self(current_ - n)`
being ambiguous between the two explicit constructors; `r += n` changes `r` to
wrap the old `current_ - n`, over raw pointers the integer difference. -/
theorem reverse_iterator_offset {It V : Type} (ops : IteratorOps It V)
    (r : reverse_iterator It) (n : Int) (mem : List V) (q : reverse_iterator Int) :
    reverse_iterator.operator_plus ops r n = Compiled.ill_formed ∧
    reverse_iterator.operator_plus (ptr_ops ([10, 20, 30, 40] : List Nat))
      { current_ := (2 : Int) } 1 = Compiled.ill_formed ∧
    (reverse_iterator.operator_plus_assign ops r n).current_ = ops.sub r.current_ n ∧
    (reverse_iterator.operator_plus_assign (ptr_ops mem) q n).current_
      = q.current_ - n :=
  ⟨rfl, rfl, rfl, rfl⟩

/-! ## `reverse_iterator`: ordering and steps -/

/-- C11, the code at the failing input: none of `x < y`, `x > y`, `x <= y`, `x >= y`
compiles for two adaptors, whatever the wrapped iterator type: `operator<` and
`operator>` call `base()` on `const` references, and `operator>=`, `operator<=`
are written through them. -/
theorem reverse_iterator_ordering_ill_formed {It V : Type} (ops : IteratorOps It V)
    (x y : reverse_iterator It) :
    reverse_iterator.operator_lt ops x y = Compiled.ill_formed ∧
    reverse_iterator.operator_gt ops x y = Compiled.ill_formed ∧
    reverse_iterator.operator_le ops x y = Compiled.ill_formed ∧
    reverse_iterator.operator_ge ops x y = Compiled.ill_formed ∧
    reverse_iterator.operator_lt (ptr_ops ([10, 20, 30, 40] : List Nat))
      { current_ := (1 : Int) } { current_ := (3 : Int) } = Compiled.ill_formed :=
  ⟨rfl, rfl, rfl, rfl, rfl⟩

/-- C12: prefix `++` changes the wrapped position to `--` of it and prefix `--`
changes it to `++` of it, the adaptor having no other member; over raw pointers
these are `current_ - 1` and `current_ + 1`, and `++` followed by `--` gives back
the adaptor. -/
theorem reverse_iterator_steps {It V : Type} (ops : IteratorOps It V)
    (r : reverse_iterator It) (mem : List V) (q : reverse_iterator Int) :
    reverse_iterator.operator_inc ops r = { current_ := ops.dec r.current_ } ∧
    reverse_iterator.operator_dec ops r = { current_ := ops.inc r.current_ } ∧
    reverse_iterator.operator_inc (ptr_ops mem) q = { current_ := q.current_ - 1 } ∧
    reverse_iterator.operator_dec (ptr_ops mem) q = { current_ := q.current_ + 1 } ∧
    reverse_iterator.operator_dec (ptr_ops mem)
      (reverse_iterator.operator_inc (ptr_ops mem) q) = q := by
  refine ⟨rfl, rfl, rfl, rfl, ?_⟩
  cases q
  simp [reverse_iterator.operator_inc, reverse_iterator.operator_dec, ptr_ops]

/-! ## The tag hierarchy -/

/-- C13: the acceptance relation of the tags is the chain random-access →
bidirectional → forward → input with output apart: a random-access tag is accepted
where input, forward or bidirectional is required; forward is required exactly by
forward, bidirectional and random-access; output accepts and is accepted by no
other tag; the relation is reflexive, transitive and antisymmetric (so a weaker tag
never meets a stronger requirement), and any two tags other than output are
related one way or the other. -/
theorem tag_hierarchy_chain :
    converts_to random_access_iterator_tag input_iterator_tag = true ∧
    converts_to random_access_iterator_tag forward_iterator_tag = true ∧
    converts_to random_access_iterator_tag bidirectional_iterator_tag = true ∧
    (∀ t, converts_to t forward_iterator_tag = true ↔
      (t = forward_iterator_tag ∨ t = bidirectional_iterator_tag ∨
        t = random_access_iterator_tag)) ∧
    converts_to input_iterator_tag forward_iterator_tag = false ∧
    converts_to output_iterator_tag forward_iterator_tag = false ∧
    converts_to forward_iterator_tag bidirectional_iterator_tag = false ∧
    converts_to bidirectional_iterator_tag random_access_iterator_tag = false ∧
    (∀ t, t ≠ output_iterator_tag →
      converts_to output_iterator_tag t = false ∧
      converts_to t output_iterator_tag = false) ∧
    (∀ t, converts_to t t = true) ∧
    (∀ t r u, converts_to t r = true → converts_to r u = true → converts_to t u = true) ∧
    (∀ t r, converts_to t r = true → converts_to r t = true → t = r) ∧
    (∀ t r, t ≠ output_iterator_tag → r ≠ output_iterator_tag →
      converts_to t r = true ∨ converts_to r t = true) ∧
    (∀ t b, direct_base t = some b → converts_to t b = true) := by
  refine ⟨by decide, by decide, by decide, ?_, by decide, by decide, by decide, by decide,
    ?_, ?_, ?_, ?_, ?_, ?_⟩
  · intro t; cases t <;> decide
  · intro t; cases t <;> decide
  · intro t; cases t <;> decide
  · intro t r u; cases t <;> cases r <;> cases u <;> decide
  · intro t r; cases t <;> cases r <;> decide
  · intro t r; cases t <;> cases r <;> decide
  · intro t b; cases t <;> cases b <;> decide

/-! ## `iterator_traits` on raw pointers -/

/-- C14, counterexample: `iterator_traits<void*>` and `iterator_traits<const void*>`
do not compile, their typedef `reference` being a reference to `void`. -/
theorem iterator_traits_void_pointer :
    iterator_traits (CType.pointer_to CType.void) = none ∧
    iterator_traits (CType.pointer_to (CType.const_of CType.void)) = none := by
  decide

/-- C14, as amended: for a type `T` other than `void` to which references can be
formed and that is not itself `const`-qualified, `iterator_traits<T*>` has category
`random_access_iterator_tag`, value type `T`, difference type `ptrdiff_t`, pointer
type `T*` and reference type `T&`; `iterator_traits<const T*>` has category
`random_access_iterator_tag` and the reference type `const T&`. -/
theorem iterator_traits_pointer (T : CType) (hT : ∀ U, T ≠ CType.const_of U)
    (href : T.referenceable = true) :
    iterator_traits (CType.pointer_to T) =
      some { iterator_category := CType.tag random_access_iterator_tag
             value_type := T
             difference_type := CType.ptrdiff_t
             pointer := CType.pointer_to T
             reference := CType.reference_to T } ∧
    (∃ m, iterator_traits (CType.pointer_to (CType.const_of T)) = some m ∧
      m.iterator_category = CType.tag random_access_iterator_tag ∧
      m.reference = CType.reference_to (CType.const_of T)) := by
  constructor
  · cases T with
    | const_of U => exact absurd rfl (hT U)
    | void => simp [CType.referenceable] at href
    | reference_to _ => simp [CType.referenceable] at href
    | named _ => rfl
    | ptrdiff_t => rfl
    | tag _ => rfl
    | pointer_to _ => rfl
    | iterator_class _ _ _ _ _ => rfl
  · refine ⟨{ iterator_category := CType.tag random_access_iterator_tag
              value_type := T
              difference_type := CType.ptrdiff_t
              pointer := CType.pointer_to (CType.const_of T)
              reference := CType.reference_to (CType.const_of T) }, ?_, rfl, rfl⟩
    simp [iterator_traits, href]

/-- Witness for C14: the element type `int`. -/
theorem iterator_traits_pointer_witness :
    (∀ U, CType.named "int" ≠ CType.const_of U) ∧
    (CType.named "int").referenceable = true ∧
    iterator_traits (CType.pointer_to (CType.named "int")) =
      some { iterator_category := CType.tag random_access_iterator_tag
             value_type := CType.named "int"
             difference_type := CType.ptrdiff_t
             pointer := CType.pointer_to (CType.named "int")
             reference := CType.reference_to (CType.named "int") } ∧
    (∃ m, iterator_traits (CType.pointer_to (CType.const_of (CType.named "int"))) = some m ∧
      m.iterator_category = CType.tag random_access_iterator_tag ∧
      m.reference = CType.reference_to (CType.const_of (CType.named "int"))) :=
  ⟨fun _ h => CType.noConfusion h, rfl,
    iterator_traits_pointer (CType.named "int") (fun _ h => CType.noConfusion h) rfl⟩

/-! ## Dispatch -/

/-- C15: `distance` runs the linear walk for the tags input, forward and
bidirectional and the subtraction for random-access; `advance` runs the input
overload for input and forward, the bidirectional overload for bidirectional and
`+=` for random-access; for the output tag neither has an overload; in each case
this is the one overload that overload resolution on the tag hierarchy selects. -/
theorem dispatch_selects_one {It V : Type} (ops : IteratorOps It V) (D : DistanceType)
    (fuel : Nat) (first last : It) (n : Int) :
    (ops.category = input_iterator_tag ∨ ops.category = forward_iterator_tag ∨
        ops.category = bidirectional_iterator_tag →
      distance ops D fuel first last n = _distance_input ops D fuel first last n) ∧
    (ops.category = random_access_iterator_tag →
      distance ops D fuel first last n = _distance_random_access ops D first last n) ∧
    (ops.category = output_iterator_tag →
      distance ops D fuel first last n = Outcome.no_overload) ∧
    (ops.category = input_iterator_tag ∨ ops.category = forward_iterator_tag →
      advance ops fuel first n = Outcome.ofLoop (_advance_input ops fuel first n)) ∧
    (ops.category = bidirectional_iterator_tag →
      advance ops fuel first n
        = Outcome.ofLoop (_advance_bidirectional ops fuel first n)) ∧
    (ops.category = random_access_iterator_tag →
      advance ops fuel first n = Outcome.value (_advance_random_access ops first n)) ∧
    (ops.category = output_iterator_tag →
      advance ops fuel first n = Outcome.no_overload) ∧
    select_overload _distance_overloads input_iterator_tag = some input_iterator_tag ∧
    select_overload _distance_overloads forward_iterator_tag = some input_iterator_tag ∧
    select_overload _distance_overloads bidirectional_iterator_tag
      = some input_iterator_tag ∧
    select_overload _distance_overloads random_access_iterator_tag
      = some random_access_iterator_tag ∧
    select_overload _distance_overloads output_iterator_tag = none ∧
    select_overload _advance_overloads input_iterator_tag = some input_iterator_tag ∧
    select_overload _advance_overloads forward_iterator_tag = some input_iterator_tag ∧
    select_overload _advance_overloads bidirectional_iterator_tag
      = some bidirectional_iterator_tag ∧
    select_overload _advance_overloads random_access_iterator_tag
      = some random_access_iterator_tag ∧
    select_overload _advance_overloads output_iterator_tag = none := by
  refine ⟨?_, ?_, ?_, ?_, ?_, ?_, ?_, by decide, by decide, by decide, by decide,
    by decide, by decide, by decide, by decide, by decide, by decide⟩
  · intro h
    rcases h with h | h | h <;> simp [distance, iterator_category, h]
  · intro h
    simp [distance, iterator_category, h]
  · intro h
    simp [distance, iterator_category, h]
  · intro h
    rcases h with h | h <;> simp [advance, iterator_category, h]
  · intro h
    simp [advance, iterator_category, h]
  · intro h
    simp [advance, iterator_category, h]
  · intro h
    simp [advance, iterator_category, h]

/-! ## The overloads of `advance` compared -/

theorem reverse_iterate_dec {It V : Type} (ops : IteratorOps It V) (k : Nat)
    (r : reverse_iterator It) :
    (reverse_ops ops).dec^[k] r = { current_ := ops.inc^[k] r.current_ } := by
  induction k generalizing r with
  | zero => simp
  | succ k ih =>
    rw [Function.iterate_succ_apply, ih, Function.iterate_succ_apply]
    rfl

theorem reverse_ptr_step_by {V : Type} (mem : List V) (r : reverse_iterator Int) (m : Int) :
    step_by (reverse_ops (ptr_ops mem)) r m = { current_ := r.current_ - m } := by
  unfold step_by
  by_cases hm : 0 ≤ m
  · simp only [hm, if_true, reverse_iterate_inc, ptr_iterate_dec]
    congr 1
    omega
  · simp only [hm, if_false, reverse_iterate_dec, ptr_iterate_inc]
    congr 1
    omega

/-- C16: over raw pointers, for any fuel above `|n|` the bidirectional overload of
`advance` ends at the position `p += n` of the random-access overload, which is
`p + n`, and for `n ≥ 0` so does the input overload; the same holds for an adaptor
over raw pointers, where all of them end at the wrapped position `current_ - n`. -/
theorem advance_paths_agree {V : Type} (mem : List V) (p : Int) (r : reverse_iterator Int)
    (n : Int) (fuel : Nat) (hfuel : n.natAbs < fuel) :
    _advance_random_access (ptr_ops mem) p n = p + n ∧
    _advance_bidirectional (ptr_ops mem) fuel p n
      = some (_advance_random_access (ptr_ops mem) p n) ∧
    (0 ≤ n → _advance_input (ptr_ops mem) fuel p n
      = some (_advance_random_access (ptr_ops mem) p n)) ∧
    (_advance_random_access (reverse_ops (ptr_ops mem)) r n).current_ = r.current_ - n ∧
    _advance_bidirectional (reverse_ops (ptr_ops mem)) fuel r n
      = some (_advance_random_access (reverse_ops (ptr_ops mem)) r n) ∧
    (0 ≤ n → _advance_input (reverse_ops (ptr_ops mem)) fuel r n
      = some (_advance_random_access (reverse_ops (ptr_ops mem)) r n)) := by
  have hp : _advance_bidirectional (ptr_ops mem) fuel p n
      = some (_advance_random_access (ptr_ops mem) p n) := by
    rw [advance_bidirectional_loop _ fuel p n hfuel, ptr_step_by]
    rfl
  have hr : _advance_bidirectional (reverse_ops (ptr_ops mem)) fuel r n
      = some (_advance_random_access (reverse_ops (ptr_ops mem)) r n) := by
    rw [advance_bidirectional_loop _ fuel r n hfuel, reverse_ptr_step_by]
    rfl
  refine ⟨rfl, hp, ?_, rfl, hr, ?_⟩
  · intro hn
    have hge : n ≥ 0 := hn
    simpa [_advance_bidirectional, hge] using hp
  · intro hn
    have hge : n ≥ 0 := hn
    simpa [_advance_bidirectional, hge] using hr

/-- Witness for C16: position 1 and the adaptor wrapping position 3, moved by 2. -/
theorem advance_paths_agree_witness :
    (2 : Int).natAbs < 3 ∧
    _advance_random_access (ptr_ops ([10, 20, 30, 40] : List Nat)) 1 2 = 3 ∧
    _advance_bidirectional (ptr_ops ([10, 20, 30, 40] : List Nat)) 3 1 2 = some 3 ∧
    _advance_input (ptr_ops ([10, 20, 30, 40] : List Nat)) 3 1 2 = some 3 ∧
    _advance_random_access (reverse_ops (ptr_ops ([10, 20, 30, 40] : List Nat)))
      { current_ := (3 : Int) } 2 = { current_ := (1 : Int) } ∧
    _advance_bidirectional (reverse_ops (ptr_ops ([10, 20, 30, 40] : List Nat))) 3
      { current_ := (3 : Int) } 2 = some { current_ := (1 : Int) } ∧
    _advance_input (reverse_ops (ptr_ops ([10, 20, 30, 40] : List Nat))) 3
      { current_ := (3 : Int) } 2 = some { current_ := (1 : Int) } := by
  have h := advance_paths_agree ([10, 20, 30, 40] : List Nat) 1 { current_ := (3 : Int) } 2 3
    (by decide)
  refine ⟨by decide, h.1, ?_, ?_, by decide, ?_, ?_⟩
  · rw [h.2.1, h.1]; rfl
  · rw [h.2.2.1 (by decide), h.1]; rfl
  · rw [h.2.2.2.2.1]; decide
  · rw [h.2.2.2.2.2 (by decide)]; decide

/-! ## The counter of `distance` -/

/-- C18, the code at the failing input: neither the difference `x - y` of two adaptors
nor `r + n` compiles, whatever the wrapped iterator type: `operator-` calls
`base()` on `const` references and `operator+` initializes its result through the
ambiguous constructors; so `(r + n) - r` has no value. -/
theorem reverse_iterator_difference_ill_formed {It V : Type} (ops : IteratorOps It V)
    (x y r : reverse_iterator It) (n : Int) :
    reverse_iterator.operator_diff ops x y = Compiled.ill_formed ∧
    reverse_iterator.operator_plus ops r n = Compiled.ill_formed ∧
    ((reverse_iterator.operator_plus ops r n).bind
      (fun s => reverse_iterator.operator_diff ops s.1 r)) = Compiled.ill_formed ∧
    reverse_iterator.operator_diff (ptr_ops ([10, 20, 30, 40] : List Nat))
      { current_ := (1 : Int) } { current_ := (3 : Int) } = Compiled.ill_formed :=
  ⟨rfl, rfl, rfl, rfl⟩

/-- C19: postfix `++` returns the adaptor as it was and leaves it wrapping `--` of
the old position; postfix `--` returns the adaptor as it was and leaves it
wrapping `++` of the old position; over raw pointers the new positions are
`current_ - 1` and `current_ + 1`. -/
theorem reverse_iterator_postfix_steps {It V : Type} (ops : IteratorOps It V)
    (r : reverse_iterator It) (mem : List V) (q : reverse_iterator Int) :
    (reverse_iterator.operator_inc_int ops r).1 = r ∧
    (reverse_iterator.operator_inc_int ops r).2 = { current_ := ops.dec r.current_ } ∧
    (reverse_iterator.operator_dec_int ops r).1 = r ∧
    (reverse_iterator.operator_dec_int ops r).2 = { current_ := ops.inc r.current_ } ∧
    (reverse_iterator.operator_inc_int (ptr_ops mem) q).1.current_ = q.current_ ∧
    (reverse_iterator.operator_inc_int (ptr_ops mem) q).2.current_ = q.current_ - 1 ∧
    (reverse_iterator.operator_dec_int (ptr_ops mem) q).1.current_ = q.current_ ∧
    (reverse_iterator.operator_dec_int (ptr_ops mem) q).2.current_ = q.current_ + 1 :=
  ⟨rfl, rfl, rfl, rfl, rfl, rfl, rfl, rfl⟩

end mSTL
